import Mathlib

/-!
# Pangolin `plotter.cpp`: channel scanner, series compiler, render loop, view controller

A shallow embedding of `src/plotter.cpp`.

* `std::string` is a `List Char`; `str[j]` on a `const std::string&` is `charAt`, which
  yields the terminating NUL at `j = str.length()`.
* `int` is `Int` reduced by `toInt32` after every arithmetic step that can leave the
  32-bit range and at every narrowing cast; `size_t` is `Nat` reduced modulo `2^64`.
* `std::set<int>` is a strictly ascending `List Int` built with `setInsert`.
* `float`/`double` view arithmetic is carried out exactly, in `ℚ`; the one conversion of a
  `size_t` to `float`, in the sample-index cache, is `sizeToFloat` (nearest, ties to even).
-/

namespace Pangolin

/-! ## Machine integers -/

/-- Two's-complement reduction of an integer to the range of a 32-bit `int`. -/
def toInt32 (z : Int) : Int := (z + 2147483648) % 4294967296 - 2147483648

/-- Number of values of a 64-bit `size_t`. -/
def sizeMod : Nat := 18446744073709551616

/-- The value of `(size_t)-1`. -/
def sizeMax : Nat := 18446744073709551615

/-! ## `std::set<int>` -/

/-- Model of `std::set<int>::insert`: the container is kept strictly ascending, duplicates are dropped. -/
def setInsert (v : Int) : List Int → List Int
  | [] => [v]
  | a :: as =>
    if v < a then v :: a :: as
    else if v = a then a :: as
    else a :: setInsert v as

/-- Range insertion `s.insert(first, last)`: every element of the range is inserted in turn. -/
def setInsertRange (s : List Int) (range : List Int) : List Int :=
  range.foldl (fun acc v => setInsert v acc) s

/-! ## `ReplaceChar` and `ConvertSequences` -/

/-- Read of `str[j]` for a `const std::string&`: position `str.length()` holds the NUL character. -/
def charAt (str : List Char) (j : Nat) : Char := str.getD j (Char.ofNat 0)

/-- Function `ReplaceChar(str, from, to)`: every occurrence of `from` becomes `to`. -/
def ReplaceChar (str : List Char) (src dst : Char) : List Char :=
  str.map (fun c => if c = src then dst else c)

/-- The inner loop of `ConvertSequences`:
`for(size_t j=i+1; std::isdigit(str[j]) && j< str.length(); ++j) v = v*10 + (str[j] - '0');`
The first argument bounds the number of condition evaluations. -/
def digitLoop (str : List Char) : Nat → Nat → Int → Int
  | 0, _, v => v
  | fuel + 1, j, v =>
    if (charAt str j).isDigit && decide (j < str.length) then
      digitLoop str fuel (j + 1) (toInt32 (v * 10 + ((charAt str j).toNat - 48 : Int)))
    else v

/-- One iteration of the outer loop of `ConvertSequences` at index `i`. -/
def scanStep (str : List Char) (seq_char id_char : Char) (sequences : List Int) (i : Nat) :
    List Int :=
  if charAt str i = seq_char then
    if i + 1 < str.length ∧ charAt str (i + 1) = id_char then
      setInsert (-1) sequences
    else
      setInsert (digitLoop str (str.length + 1) (i + 1) 0) sequences
  else sequences

/-- Function `ConvertSequences(str, seq_char, id_char)`: the outer loop runs `i` over `0 .. length-1`. -/
def ConvertSequences (str : List Char) (seq_char id_char : Char) : List Int :=
  (List.range str.length).foldl (scanStep str seq_char id_char) []

/-- The inner loop of `ConvertSequences` together with the list of indices passed to
`str[.]`, in program order: the condition reads `str[j]` before it tests `j < str.length()`,
the body reads `str[j]` once more. -/
def digitLoopReads (str : List Char) : Nat → Nat → Int → Int × List Nat
  | 0, _, v => (v, [])
  | fuel + 1, j, v =>
    if (charAt str j).isDigit && decide (j < str.length) then
      let r := digitLoopReads str fuel (j + 1)
        (toInt32 (v * 10 + ((charAt str j).toNat - 48 : Int)))
      (r.1, j :: j :: r.2)
    else (v, [j])

/-- One outer iteration of `ConvertSequences` with its reads: `str[i]`, then `str[i+1]`
only when `i+1 < str.length()` (short-circuit), then the reads of the digit loop. -/
def scanStepReads (str : List Char) (seq_char id_char : Char) (acc : List Int × List Nat)
    (i : Nat) : List Int × List Nat :=
  if charAt str i = seq_char then
    if i + 1 < str.length then
      if charAt str (i + 1) = id_char then
        (setInsert (-1) acc.1, acc.2 ++ [i, i + 1])
      else
        let r := digitLoopReads str (str.length + 1) (i + 1) 0
        (setInsert r.1 acc.1, acc.2 ++ [i, i + 1] ++ r.2)
    else
      let r := digitLoopReads str (str.length + 1) (i + 1) 0
      (setInsert r.1 acc.1, acc.2 ++ [i] ++ r.2)
  else (acc.1, acc.2 ++ [i])

/-- Function `ConvertSequences` instrumented: the returned set and every index read through `str[.]`. -/
def ConvertSequencesReads (str : List Char) (seq_char id_char : Char) : List Int × List Nat :=
  (List.range str.length).foldl (scanStepReads str seq_char id_char) ([], [])

/-! ### Reference notions used to state the scanner contract -/

/-- The maximal run of decimal digits of `str` that starts at index `j`. -/
def digitRun (str : List Char) (j : Nat) : List Char := (str.drop j).takeWhile Char.isDigit

/-- Decimal value of a digit string (the empty string has value 0). -/
def decimalValue (ds : List Char) : Nat := ds.foldl (fun v c => v * 10 + (c.toNat - 48)) 0

/-- The digit loop as a fold over a digit string, with the 32-bit reduction of each step. -/
def wrapFold (v : Int) (ds : List Char) : Int :=
  ds.foldl (fun v c => toInt32 (v * 10 + ((c.toNat : Int) - 48))) v

/-- Every digit run that follows a reference marker denotes a value representable as `int`. -/
def InIntRange (str : List Char) : Prop :=
  ∀ i < str.length, str[i]? = some '$' → decimalValue (digitRun str (i + 1)) < 2147483648

instance (str : List Char) : Decidable (InIntRange str) := by
  unfold InIntRange; infer_instance

/-- The scanner contract as the specification words it: `-1` for a marker followed by the
index character, `n ≥ 0` for a marker followed by a non-empty digit run of value `n`. -/
def ScannerContract (str : List Char) : Prop :=
  ∀ n : Int, n ∈ ConvertSequences str '$' 'i' ↔
    (n = -1 ∧ ∃ i < str.length, str[i]? = some '$' ∧ str[i + 1]? = some 'i') ∨
    (0 ≤ n ∧ ∃ i < str.length, str[i]? = some '$' ∧ digitRun str (i + 1) ≠ [] ∧
      (decimalValue (digitRun str (i + 1)) : Int) = n)


/-! ## `Plotter::PlotSeries::CreatePlot` -/

/-- Output of `oss << i` for an `int`: decimal digits, with a leading minus sign when negative. -/
def ostreamInt (i : Int) : List Char :=
  if i < 0 then '-' :: Nat.toDigits 10 i.natAbs else Nat.toDigits 10 i.toNat

/-- Record `PlotAttrib(name, plot_id)`; `location` is filled in from the linked program. -/
structure PlotAttrib where
  name : List Char
  plot_id : Int
  location : Int
deriving DecidableEq

/-- The fields of `PlotSeries` written by `CreatePlot`; `vs` is the vertex shader source
handed to `prog.AddShader(GlSlVertexShader, ...)`. -/
structure PlotSeries where
  attribs : List PlotAttrib
  contains_id : Bool
  vs : List Char
deriving DecidableEq

/-- The static `vs_header` of `CreatePlot`. -/
def vs_header : List Char :=
  ("uniform int u_id_offset;\n" ++
   "uniform vec4 u_color;\n" ++
   "uniform vec2 u_scale;\n" ++
   "uniform vec2 u_offset;\n" ++
   "varying vec4 v_color;\n" ++
   "void main() \x7b\n").toList

/-- The static `vs_footer` of `CreatePlot`. -/
def vs_footer : List Char :=
  ("    vec2 pos = vec2(x, y);\n" ++
   "    gl_Position = vec4(u_scale * (pos + u_offset),0,1);\n" ++
   "    v_color = u_color;\n" ++
   "\x7d\n").toList

/-- The name `CreatePlot` gives to the binding of channel `i`:
`*i >= 0 ? oss.str() : "si"` with `oss << "s" << *i`. -/
def attribName (i : Int) : List Char :=
  if i ≥ 0 then 's' :: ostreamInt i else ['s', 'i']

/-- Function `CreatePlot(x, y)`. The GPU program is an external collaborator: `GetAttributeHandle`
stands for `prog.GetAttributeHandle` after a successful `Link`. -/
def CreatePlot (GetAttributeHandle : List Char → Int) (x y : List Char) : PlotSeries :=
  let ax := ConvertSequences x '$' 'i'
  let ay := ConvertSequences y '$' 'i'
  let asUnion := setInsertRange (setInsertRange [] ax) ay
  let vs_attrib := (asUnion.map fun (i : Int) =>
    "attribute float ".toList ++ attribName i ++ ";\n".toList).flatten
  { attribs := asUnion.map fun (i : Int) =>
      { name := attribName i, plot_id := i, location := GetAttributeHandle (attribName i) }
    contains_id := decide ((-1 : Int) ∈ asUnion)
    vs := vs_attrib ++ vs_header ++
      "float x = ".toList ++ ReplaceChar x '$' 's' ++ ";\n".toList ++
      "float y = ".toList ++ ReplaceChar y '$' 's' ++ ";\n".toList ++
      vs_footer }

/-- The name the specification gives to the binding of channel `c`. -/
def specName (c : Int) : List Char :=
  if c = -1 then ['s', 'i'] else 's' :: ostreamInt c

/-- Every channel reference of `str` is declared among `names`: for each marker followed by
`i`, or by a non-empty maximal digit run `d`, the identifier `si`, respectively `s` followed
by `d` as written (what `ReplaceChar` leaves in the shader text), is one of `names`. -/
def ReferencesDeclared (str : List Char) (names : List (List Char)) : Prop :=
  (∀ i < str.length, str[i]? = some '$' → str[i + 1]? = some 'i' → ['s', 'i'] ∈ names) ∧
  (∀ i < str.length, str[i]? = some '$' → digitRun str (i + 1) ≠ [] →
    's' :: digitRun str (i + 1) ∈ names)

instance (str : List Char) (names : List (List Char)) :
    Decidable (ReferencesDeclared str names) := by
  unfold ReferencesDeclared
  exact @instDecidableAnd _ _ (by infer_instance) (by infer_instance)

/-! ## View state and the interaction handlers -/

/-- Member `Viewport v`: left, bottom, width, height in pixels (`GLint`). -/
structure Viewport where
  l : Int
  b : Int
  w : Int
  h : Int
deriving DecidableEq

/-- The view-state members of `Plotter`; a two-element array is a pair, `a[0]` is `.1` and
`a[1]` is `.2`. `float` and `double` values are rationals. -/
structure Plotter where
  v : Viewport
  int_x : ℚ × ℚ
  int_y : ℚ × ℚ
  ticks : ℚ × ℚ
  track_front : Bool
  hover : ℚ × ℚ
  sel_x : ℚ × ℚ
  sel_y : ℚ × ℚ
  last_mouse_pos : Int × Int
deriving DecidableEq

/-- The `enum InputSpecial` of `pangolin/handler.h`; `Special` tests only the first two tags. -/
inductive InputSpecial where
  | InputSpecialScroll
  | InputSpecialZoom
  | InputSpecialRotate
  | InputSpecialTablet
deriving DecidableEq

/-- Enumerators of `pangolin/handler.h` that the handlers compare against; the header is
not part of the source tree, so their values are parameters. -/
structure HandlerConsts where
  MouseButtonLeft : Int
  MouseButtonMiddle : Int
  MouseButtonRight : Int
  MouseWheelUp : Int
  MouseWheelDown : Int
  KeyModifierCmd : Int

/-- Conversion of a `float` argument to an `int` parameter: truncation toward zero. -/
def floatToInt (q : ℚ) : Int := if 0 ≤ q then ⌊q⌋ else ⌈q⌉

/-- Function `ScreenToPlot(xpix, ypix, xplot, yplot)`; the two outputs are returned as a pair. -/
def ScreenToPlot (p : Plotter) (xpix ypix : Int) : ℚ × ℚ :=
  (p.int_x.1 + (p.int_x.2 - p.int_x.1) * ((xpix - p.v.l : Int) : ℚ) / (p.v.w : ℚ),
   p.int_y.1 + (p.int_y.2 - p.int_y.1) * ((ypix - p.v.b : Int) : ℚ) / (p.v.h : ℚ))

/-- Handler `Plotter::Special(view, inType, x, y, p1, p2, p3, p4, button_state)`. -/
def Special (k : HandlerConsts) (p : Plotter) (inType : InputSpecial)
    (x y p1 p2 _p3 _p4 : ℚ) (button_state : Int) : Plotter :=
  let q : Plotter :=
    if inType = InputSpecial.InputSpecialScroll then
      let d : ℚ × ℚ := (p1, -p2)
      let is : ℚ × ℚ := (p.int_x.2 - p.int_x.1, p.int_y.2 - p.int_y.1)
      let df : ℚ × ℚ := (is.1 * d.1 / (p.v.w : ℚ), is.2 * d.2 / (p.v.h : ℚ))
      { p with
        int_x := (p.int_x.1 - df.1, p.int_x.2 - df.1)
        int_y := (p.int_y.1 - df.2, p.int_y.2 - df.2)
        track_front := if df.1 > 0 then false else p.track_front }
    else if inType = InputSpecial.InputSpecialZoom then
      let scale : ℚ := 1 - p1
      let c : ℚ × ℚ :=
        (if p.track_front then p.int_x.2 else (p.int_x.1 + p.int_x.2) / 2,
         (p.int_y.1 + p.int_y.2) / 2)
      if Int.land button_state k.KeyModifierCmd ≠ 0 then
        { p with int_y := (scale * (p.int_y.1 - c.2) + c.2, scale * (p.int_y.2 - c.2) + c.2) }
      else
        { p with int_x := (scale * (p.int_x.1 - c.1) + c.1, scale * (p.int_x.2 - c.1) + c.1) }
    else p
  { q with hover := ScreenToPlot q (floatToInt x) (floatToInt y) }

/-- Handler `Plotter::Mouse(view, button, x, y, pressed, button_state)`. -/
def Mouse (k : HandlerConsts) (p : Plotter) (button : Int) (x y : Int) (pressed : Bool)
    (button_state : Int) : Plotter :=
  let p0 : Plotter := { p with last_mouse_pos := (x, y) }
  if button = k.MouseButtonLeft then
    let p1 : Plotter :=
      if pressed then
        { p0 with sel_x := ((ScreenToPlot p0 x y).1, p0.sel_x.2)
                  sel_y := ((ScreenToPlot p0 x y).2, p0.sel_y.2) }
      else p0
    { p1 with sel_x := (p1.sel_x.1, (ScreenToPlot p1 x y).1)
              sel_y := (p1.sel_y.1, (ScreenToPlot p1 x y).2) }
  else if button = k.MouseWheelUp ∨ button = k.MouseWheelDown then
    Special k p0 InputSpecial.InputSpecialZoom x y
      (if button = k.MouseWheelDown then 1 / 10 else -(1 / 10)) 0 0 0 button_state
  else p0

/-- Handler `Plotter::MouseMotion(view, x, y, button_state)`. -/
def MouseMotion (k : HandlerConsts) (p : Plotter) (x y : Int) (button_state : Int) :
    Plotter :=
  let d : Int × Int := (x - p.last_mouse_pos.1, y - p.last_mouse_pos.2)
  let is : ℚ × ℚ := (p.int_x.2 - p.int_x.1, p.int_y.2 - p.int_y.1)
  let df : ℚ × ℚ := (is.1 * (d.1 : ℚ) / (p.v.w : ℚ), is.2 * (d.2 : ℚ) / (p.v.h : ℚ))
  let q : Plotter :=
    if button_state = k.MouseButtonLeft then
      { p with sel_x := (p.sel_x.1, (ScreenToPlot p x y).1)
               sel_y := (p.sel_y.1, (ScreenToPlot p x y).2) }
    else if button_state = k.MouseButtonMiddle then
      Special k p InputSpecial.InputSpecialScroll df.1 df.2 0 0 0 0 button_state
    else if button_state = k.MouseButtonRight then
      let c : ℚ × ℚ :=
        (if p.track_front then p.int_x.2 else (p.int_x.1 + p.int_x.2) / 2,
         (p.int_y.1 + p.int_y.2) / 2)
      let scale : ℚ × ℚ := (1 + (d.1 : ℚ) / (p.v.w : ℚ), 1 - (d.2 : ℚ) / (p.v.h : ℚ))
      { p with
        int_x := (scale.1 * (p.int_x.1 - c.1) + c.1, scale.1 * (p.int_x.2 - c.1) + c.1)
        int_y := (scale.2 * (p.int_y.1 - c.2) + c.2, scale.2 * (p.int_y.2 - c.2) + c.2) }
    else p
  { q with hover := ScreenToPlot q x y, last_mouse_pos := (x, y) }

/-- Handler `Plotter::PassiveMouseMotion(view, x, y, button_state)`. -/
def PassiveMouseMotion (p : Plotter) (x y : Int) : Plotter :=
  { p with hover := ScreenToPlot p x y }

/-- The pan the specification describes for a pixel delta `(dx, dy)`: both X bounds lose
`sx*dx/W`, both Y bounds move by `sy*dy/H`. -/
def specPanX (p : Plotter) (dx : Int) : ℚ × ℚ :=
  (p.int_x.1 - (p.int_x.2 - p.int_x.1) * (dx : ℚ) / (p.v.w : ℚ),
   p.int_x.2 - (p.int_x.2 - p.int_x.1) * (dx : ℚ) / (p.v.w : ℚ))

/-! ## `Plotter::Render` -/

/-- Uniform `u_scale` as set by `Render`: `(2.0f / w, 2.0f / h)`. -/
def renderScale (p : Plotter) : ℚ × ℚ :=
  let w := p.int_x.2 - p.int_x.1
  let h := p.int_y.2 - p.int_y.1
  (2 / w, 2 / h)

/-- Uniform `u_offset` as set by `Render`: `(ox, oy) = (-(x+w/2), -(y+h/2))`. -/
def renderOffset (p : Plotter) : ℚ × ℚ :=
  let x := p.int_x.1
  let y := p.int_y.1
  let w := p.int_x.2 - x
  let h := p.int_y.2 - y
  (-(x + w / 2), -(y + h / 2))

/-- The vertex shaders' `gl_Position = vec4(u_scale * (pos + u_offset),0,1)`. -/
def clipPosition (u_scale u_offset pos : ℚ × ℚ) : ℚ × ℚ :=
  (u_scale.1 * (pos.1 + u_offset.1), u_scale.2 * (pos.2 + u_offset.2))

/-- The viewport map from normalised device coordinates to pixels:
`left + width*(ndc_x+1)/2`, `bottom + height*(ndc_y+1)/2`. -/
def ndcToPixel (v : Viewport) (ndc : ℚ × ℚ) : ℚ × ℚ :=
  ((v.l : ℚ) + (v.w : ℚ) * (ndc.1 + 1) / 2, (v.b : ℚ) + (v.h : ℚ) * (ndc.2 + 1) / 2)

/-! ### The series loop of `Render` -/

/-- What `Render` reads of a `DataLogBlock` (all `size_t`); a block chain, walked with
`NextBlock()` until null, is a `List DataLogBlock`. -/
structure DataLogBlock where
  Samples : Nat
  MaxSamples : Nat
  Dimensions : Nat
  StartId : Nat
deriving DecidableEq

/-- The function-level statics `id_start`, `id_size`, `id_array` of `Render`; the element
type `α` stands for `float`. -/
structure IdCache (α : Type) where
  id_start : Nat
  id_size : Nat
  id_array : List α

/-- Initial values of the statics: `id_start = 0`, `id_size = 0`, `id_array = 0`. -/
def IdCache.initial {α : Type} : IdCache α := { id_start := 0, id_size := 0, id_array := [] }

/-- The pointer argument of `glVertexAttribPointer`. -/
inductive AttribSource where
  | DimData (plot_id : Int)
  | IdArray
deriving DecidableEq

/-- The OpenGL calls issued while one block is visited. -/
inductive GlCall where
  | SetUniformIdOffset (value : Int)
  | VertexAttribPointer (location : Int) (stride : Int) (pointer : AttribSource)
  | EnableVertexAttribArray (location : Int)
  | DrawArrays (count : Int)
  | DisableVertexAttribArray (location : Int)
deriving DecidableEq

/-- The regeneration loop `for(size_t k=0; k < id_size; ++k) id_array[k] = StartId + k;`
writing in place; `toFloat` is the conversion of the `size_t` sum to `float`, which is
`sizeToFloat` in `Render`. -/
def fillIdArray {α : Type} (toFloat : Nat → α) (startId id_size : Nat) (id_array : List α) :
    List α :=
  (List.range id_size).foldl (fun arr k => arr.set k (toFloat ((startId + k) % sizeMod)))
    id_array

/-- The cache maintenance done for a block when `ps.contains_id` holds. A fresh
`new float[id_size]` holds `garbage`. -/
def updateIdCache {α : Type} (toFloat : Nat → α) (garbage : α) (c : IdCache α)
    (block : DataLogBlock) : IdCache α :=
  let c1 : IdCache α :=
    if c.id_size < block.Samples then
      { id_start := sizeMax
        id_size := block.MaxSamples
        id_array := List.replicate block.MaxSamples garbage }
    else c
  if c1.id_start ≠ block.StartId then
    { c1 with id_array := fillIdArray toFloat block.StartId c1.id_size c1.id_array }
  else c1

/-- The loop "Enable appropriate attributes": the calls issued and whether the loop ran to
its end (`false` when it left through `goto draw_skip`). -/
def enableAttribs (block : DataLogBlock) : List PlotAttrib → List GlCall × Bool
  | [] => ([], true)
  | a :: rest =>
    if 0 ≤ a.plot_id ∧ a.plot_id < toInt32 (block.Dimensions : Int) then
      let r := enableAttribs block rest
      (GlCall.VertexAttribPointer a.location
          (toInt32 (((block.Dimensions * 4) % sizeMod : Nat) : Int))
          (AttribSource.DimData a.plot_id) ::
        GlCall.EnableVertexAttribArray a.location :: r.1, r.2)
    else if a.plot_id = -1 then
      let r := enableAttribs block rest
      (GlCall.VertexAttribPointer a.location 0 AttribSource.IdArray ::
        GlCall.EnableVertexAttribArray a.location :: r.1, r.2)
    else ([], false)

/-- One visit of the `while(block)` loop body: the series, the block, the cache as left by
the maintenance step (its state when the draw is issued) and the calls, in order. -/
structure BlockVisit (α : Type) where
  series : PlotSeries
  block : DataLogBlock
  cache : IdCache α
  calls : List GlCall

/-- The body of `while(block)` for series `ps`. -/
def renderBlock {α : Type} (toFloat : Nat → α) (garbage : α) (ps : PlotSeries)
    (c : IdCache α) (block : DataLogBlock) : BlockVisit α :=
  let c1 := if ps.contains_id then updateIdCache toFloat garbage c block else c
  let en := enableAttribs block ps.attribs
  { series := ps
    block := block
    cache := c1
    calls :=
      [GlCall.SetUniformIdOffset (toInt32 (block.StartId : Int))] ++ en.1 ++
      (if en.2 then [GlCall.DrawArrays (toInt32 (block.Samples : Int))] else []) ++
      ps.attribs.map fun a => GlCall.DisableVertexAttribArray a.location }

/-- The `while(block)` loop of one series over the chain that starts at `log->Blocks()`:
the cache after the loop and the visits in order. -/
def renderBlocks {α : Type} (toFloat : Nat → α) (garbage : α) (ps : PlotSeries) :
    IdCache α → List DataLogBlock → IdCache α × List (BlockVisit α)
  | c, [] => (c, [])
  | c, block :: rest =>
    let vis := renderBlock toFloat garbage ps c block
    let r := renderBlocks toFloat garbage ps vis.cache rest
    (r.1, vis :: r.2)

/-- The series loop `for(size_t i=0; i < plotseries.size(); ++i)` of one `Render` call. -/
def renderSeries {α : Type} (toFloat : Nat → α) (garbage : α) (blocks : List DataLogBlock) :
    IdCache α → List PlotSeries → IdCache α × List (BlockVisit α)
  | c, [] => (c, [])
  | c, ps :: rest =>
    let r1 := renderBlocks toFloat garbage ps c blocks
    let r2 := renderSeries toFloat garbage blocks r1.1 rest
    (r2.1, r1.2 ++ r2.2)

/-- A sequence of `Render` calls, each with the series and the block chain it sees; the
statics persist from one call to the next. -/
def renderFrames {α : Type} (toFloat : Nat → α) (garbage : α) :
    IdCache α → List (List PlotSeries × List DataLogBlock) → IdCache α × List (BlockVisit α)
  | c, [] => (c, [])
  | c, frame :: rest =>
    let r1 := renderSeries toFloat garbage frame.2 c frame.1
    let r2 := renderFrames toFloat garbage r1.1 rest
    (r2.1, r1.2 ++ r2.2)

/-- The OpenGL calls of a list of visits, in program order. -/
def glTrace {α : Type} (visits : List (BlockVisit α)) : List GlCall :=
  (visits.map fun vis => vis.calls).flatten

/-- Whether a call is a `glDrawArrays`. -/
def GlCall.isDraw : GlCall → Bool
  | GlCall.DrawArrays _ => true
  | _ => false

/-- Every binding of the series is the sample index or a channel the block has. -/
def Drawable (ps : PlotSeries) (block : DataLogBlock) : Prop :=
  ∀ a ∈ ps.attribs, a.plot_id = -1 ∨ (0 ≤ a.plot_id ∧ a.plot_id < (block.Dimensions : Int))

instance (ps : PlotSeries) (block : DataLogBlock) : Decidable (Drawable ps block) := by
  unfold Drawable; infer_instance

/-- The statics are consistent: the array has `id_size` elements, and `id_start` is the
invalid id as soon as an array has been allocated. -/
def CacheInv {α : Type} (c : IdCache α) : Prop :=
  c.id_array.length = c.id_size ∧ (c.id_size = 0 ∨ c.id_start = sizeMax)

/-- The cache serves `block`: it holds at least `Samples` entries, entry `k` being the
converted `StartId + k`. -/
def CacheServes {α : Type} (toFloat : Nat → α) (c : IdCache α) (block : DataLogBlock) :
    Prop :=
  block.Samples ≤ c.id_array.length ∧
  ∀ k < block.Samples, c.id_array[k]? = some (toFloat ((block.StartId + k) % sizeMod))

/-- Number of low bits of `n` that do not fit a 24-bit significand: the halvings needed
to bring `n` below `2^24`. The first argument bounds their number; 64 covers every `size_t`. -/
def droppedBits : Nat → Nat → Nat
  | 0, _ => 0
  | fuel + 1, n => if n < 16777216 then 0 else droppedBits fuel (n / 2) + 1

/-- The integer held by a 32-bit `float` after conversion from the `size_t` value `n`: the
nearest integer with a 24-bit significand, a tie going to the even significand. -/
def roundToFloat (n : Nat) : Nat :=
  let e := droppedBits 64 n
  let q := n / 2 ^ e
  let r := n % 2 ^ e
  if 2 * r < 2 ^ e then q * 2 ^ e
  else if 2 * r = 2 ^ e ∧ q % 2 = 0 then q * 2 ^ e
  else (q + 1) * 2 ^ e

/-- The conversion in `id_array[k] = block->StartId() + k`: a `size_t` stored in a `float`. -/
def sizeToFloat (n : Nat) : ℚ := ((roundToFloat n : Nat) : ℚ)

/-- The cache as the specification words it: at least `Samples` entries, entry `k` equal
to `StartId + k`. -/
def CacheExact (c : IdCache ℚ) (block : DataLogBlock) : Prop :=
  block.Samples ≤ c.id_array.length ∧
  ∀ k < block.Samples, c.id_array[k]? = some ((block.StartId + k : Nat) : ℚ)

/-! ## Machine arithmetic and `std::set` lemmas -/


theorem toInt32_of_range {z : Int} (h0 : -2147483648 ≤ z) (h1 : z < 2147483648) :
    toInt32 z = z := by
  unfold toInt32; omega

theorem toInt32_bounds (z : Int) : -2147483648 ≤ toInt32 z ∧ toInt32 z < 2147483648 := by
  unfold toInt32; omega

theorem toInt32_congr_step {a b : Int} (d : Int) (h : toInt32 a = toInt32 b) :
    toInt32 (toInt32 (a * 10 + d)) = toInt32 (b * 10 + d) := by
  unfold toInt32 at *; omega

theorem isDigit_toNat {c : Char} (h : c.isDigit = true) : 48 ≤ c.toNat ∧ c.toNat ≤ 57 := by
  simp [Char.isDigit] at h
  exact h

theorem charAt_of_lt {str : List Char} {j : Nat} (h : j < str.length) :
    charAt str j = str[j] := by
  simp [charAt, List.getD, List.getElem?_eq_getElem h]

theorem digitRun_of_ge {str : List Char} {j : Nat} (h : str.length ≤ j) :
    digitRun str j = [] := by
  simp [digitRun, List.drop_eq_nil_of_le h]

theorem digitRun_of_lt {str : List Char} {j : Nat} (h : j < str.length) :
    digitRun str j = if (charAt str j).isDigit then charAt str j :: digitRun str (j + 1)
      else [] := by
  unfold digitRun
  rw [List.drop_eq_getElem_cons h, List.takeWhile_cons, charAt_of_lt h]

theorem digitLoop_eq_wrapFold (str : List Char) :
    ∀ (fuel j : Nat) (v : Int), str.length ≤ fuel + j →
      digitLoop str fuel j v = wrapFold v (digitRun str j) := by
  intro fuel
  induction fuel with
  | zero =>
    intro j v h
    rw [digitRun_of_ge (by omega)]
    rfl
  | succ fuel ih =>
    intro j v h
    unfold digitLoop
    by_cases hj : j < str.length
    · rw [digitRun_of_lt hj]
      by_cases hd : (charAt str j).isDigit = true
      · simp only [hd, hj, decide_True, Bool.and_self, if_true]
        rw [ih (j + 1) _ (by omega)]
        rfl
      · simp [hd, wrapFold]
    · rw [digitRun_of_ge (by omega)]
      simp [hj, wrapFold]

theorem decimalFold_wrap (ds : List Char) :
    ∀ (a : Int) (n : Nat), (∀ c ∈ ds, c.isDigit = true) → toInt32 a = toInt32 (n : Int) →
      toInt32 (wrapFold a ds)
        = toInt32 ((ds.foldl (fun v c => v * 10 + (c.toNat - 48)) n : Nat) : Int) := by
  induction ds with
  | nil => intro a n _ h; simpa [wrapFold] using h
  | cons c ds ih =>
    intro a n hd h
    have hc := isDigit_toNat (hd c (List.mem_cons_self _ _))
    have := ih (toInt32 (a * 10 + ((c.toNat : Int) - 48))) (n * 10 + (c.toNat - 48))
      (fun x hx => hd x (List.mem_cons_of_mem _ hx))
      (by
        have e : ((n * 10 + (c.toNat - 48) : Nat) : Int) = (n : Int) * 10 + ((c.toNat : Int) - 48) := by
          omega
        rw [e]
        exact toInt32_congr_step _ h)
    simpa [wrapFold] using this

theorem wrapFold_in_range (ds : List Char) (a : Int)
    (ha : -2147483648 ≤ a ∧ a < 2147483648) : toInt32 (wrapFold a ds) = wrapFold a ds := by
  have : -2147483648 ≤ wrapFold a ds ∧ wrapFold a ds < 2147483648 := by
    induction ds using List.reverseRecOn with
    | nil => simpa [wrapFold] using ha
    | append_singleton ds c _ =>
      simp only [wrapFold, List.foldl_append, List.foldl_cons, List.foldl_nil]
      exact toInt32_bounds _
  exact toInt32_of_range this.1 this.2

theorem digitRun_isDigit (str : List Char) (j : Nat) : ∀ c ∈ digitRun str j, c.isDigit = true :=
  fun _ hc => List.mem_takeWhile_imp hc

/-- The value the digit loop leaves in `v`: the decimal value of the maximal digit run
that starts at `j`, reduced to 32 bits. -/
theorem digitLoop_value (str : List Char) (j : Nat) :
    digitLoop str (str.length + 1) j 0 = toInt32 (decimalValue (digitRun str j) : Int) := by
  rw [digitLoop_eq_wrapFold str _ _ _ (by omega), ← wrapFold_in_range _ _ (by omega)]
  exact decimalFold_wrap _ 0 0 (digitRun_isDigit str j) rfl


theorem mem_setInsert (x v : Int) (l : List Int) : x ∈ setInsert v l ↔ x = v ∨ x ∈ l := by
  induction l with
  | nil => simp [setInsert]
  | cons a as ih =>
    unfold setInsert
    split_ifs with h1 h2
    · simp
    · subst h2; simp
    · simp [ih]; tauto

theorem sorted_setInsert (v : Int) (l : List Int) (h : l.Sorted (· < ·)) :
    (setInsert v l).Sorted (· < ·) := by
  induction l with
  | nil => simp [setInsert]
  | cons a as ih =>
    unfold setInsert
    split_ifs with h1 h2
    · refine List.sorted_cons.2 ⟨?_, h⟩
      intro b hb
      rcases List.mem_cons.1 hb with rfl | hb
      · exact h1
      · exact lt_trans h1 (List.rel_of_sorted_cons h b hb)
    · exact h
    · refine List.sorted_cons.2 ⟨?_, ih (List.sorted_cons.1 h).2⟩
      intro b hb
      rcases (mem_setInsert b v as).1 hb with rfl | hb
      · omega
      · exact List.rel_of_sorted_cons h b hb


theorem mem_foldl_scanStep (str : List Char) (sc ic : Char) (n : Int) (l : List Nat) :
    ∀ acc : List Int, n ∈ l.foldl (scanStep str sc ic) acc ↔
      n ∈ acc ∨ ∃ i ∈ l, charAt str i = sc ∧
        n = if i + 1 < str.length ∧ charAt str (i + 1) = ic then -1
            else digitLoop str (str.length + 1) (i + 1) 0 := by
  induction l with
  | nil => intro acc; simp
  | cons i l ih =>
    intro acc
    rw [List.foldl_cons, ih]
    unfold scanStep
    by_cases h1 : charAt str i = sc
    · by_cases h2 : i + 1 < str.length ∧ charAt str (i + 1) = ic
      · simp only [h1, h2, and_self, if_true, mem_setInsert, List.exists_mem_cons_iff,
          true_and]
        tauto
      · simp only [h1, h2, if_true, if_false, mem_setInsert, List.exists_mem_cons_iff,
          true_and]
        tauto
    · simp only [h1, if_false, List.exists_mem_cons_iff, false_and, false_or]

theorem getElem?_eq_some_iff_charAt (str : List Char) (i : Nat) (c : Char) :
    str[i]? = some c ↔ i < str.length ∧ charAt str i = c := by
  constructor
  · intro h
    obtain ⟨hi, he⟩ := List.getElem?_eq_some_iff.1 h
    exact ⟨hi, by rw [charAt_of_lt hi, he]⟩
  · rintro ⟨hi, he⟩
    rw [List.getElem?_eq_getElem hi, ← charAt_of_lt hi, he]

/-- Exact content of the set returned by `ConvertSequences`. -/
theorem mem_ConvertSequences (str : List Char) (n : Int) :
    n ∈ ConvertSequences str '$' 'i' ↔
      ∃ i, str[i]? = some '$' ∧
        ((str[i + 1]? = some 'i' ∧ n = -1) ∨
         (str[i + 1]? ≠ some 'i' ∧ n = toInt32 (decimalValue (digitRun str (i + 1)) : Int))) := by
  unfold ConvertSequences
  rw [mem_foldl_scanStep]
  simp only [List.not_mem_nil, false_or, List.mem_range, getElem?_eq_some_iff_charAt,
    digitLoop_value, ne_eq]
  constructor
  · rintro ⟨i, hi, hc, hn⟩
    refine ⟨i, ⟨hi, hc⟩, ?_⟩
    by_cases h2 : i + 1 < str.length ∧ charAt str (i + 1) = 'i'
    · left; rw [if_pos h2] at hn; exact ⟨h2, hn⟩
    · right; rw [if_neg h2] at hn; exact ⟨h2, hn⟩
  · rintro ⟨i, ⟨hi, hc⟩, h | h⟩
    · exact ⟨i, hi, hc, by rw [if_pos h.1]; exact h.2⟩
    · exact ⟨i, hi, hc, by rw [if_neg h.1]; exact h.2⟩

theorem sorted_foldl_scanStep (str : List Char) (sc ic : Char) (l : List Nat) :
    ∀ acc : List Int, acc.Sorted (· < ·) → (l.foldl (scanStep str sc ic) acc).Sorted (· < ·) := by
  induction l with
  | nil => intro acc h; simpa using h
  | cons i l ih =>
    intro acc h
    rw [List.foldl_cons]
    apply ih
    unfold scanStep
    split_ifs
    · exact sorted_setInsert _ _ h
    · exact sorted_setInsert _ _ h
    · exact h

theorem sorted_ConvertSequences (str : List Char) (sc ic : Char) :
    (ConvertSequences str sc ic).Sorted (· < ·) :=
  sorted_foldl_scanStep str sc ic _ [] List.sorted_nil


theorem lt_length_of_getElem? {str : List Char} {i : Nat} {c : Char} (h : str[i]? = some c) :
    i < str.length := (List.getElem?_eq_some_iff.1 h).1

/-- C1, as stated, fails: a marker followed by no digit still inserts channel 0. -/
theorem ConvertSequences_bare_marker :
    ConvertSequences ['$', 'x'] '$' 'i' = [0] ∧ ¬ ScannerContract ['$', 'x'] := by
  refine ⟨by decide, fun h => ?_⟩
  have h0 := (h 0).1 (by decide)
  revert h0
  decide

/-- C1 (amended): when every digit run after a marker fits an `int`, the returned set holds
`-1` exactly when some marker is immediately followed by `i`, and a non-negative `n` exactly
when some marker not immediately followed by `i` is followed by a maximal digit run, possibly
empty, of decimal value `n` (the empty run counting as 0); scanning `$0+$2*$i` gives
`{-1, 0, 2}`. -/
theorem ConvertSequences_contract (str : List Char) (hr : InIntRange str) :
    (∀ n : Int, n ∈ ConvertSequences str '$' 'i' ↔
      (n = -1 ∧ ∃ i < str.length, str[i]? = some '$' ∧ str[i + 1]? = some 'i') ∨
      (0 ≤ n ∧ ∃ i < str.length, str[i]? = some '$' ∧ str[i + 1]? ≠ some 'i' ∧
        (decimalValue (digitRun str (i + 1)) : Int) = n)) ∧
    (ConvertSequences str '$' 'i').Sorted (· < ·) ∧
    ConvertSequences ['$', '0', '+', '$', '2', '*', '$', 'i'] '$' 'i' = [-1, 0, 2] := by
  refine ⟨fun n => ?_, sorted_ConvertSequences _ _ _, by decide⟩
  rw [mem_ConvertSequences]
  constructor
  · rintro ⟨i, hm, ⟨hi, hn⟩ | ⟨hi, hn⟩⟩
    · exact Or.inl ⟨hn, i, lt_length_of_getElem? hm, hm, hi⟩
    · have hv := hr i (lt_length_of_getElem? hm) hm
      have e : toInt32 (decimalValue (digitRun str (i + 1)) : Int)
          = (decimalValue (digitRun str (i + 1)) : Int) := toInt32_of_range (by omega) (by omega)
      rw [e] at hn
      exact Or.inr ⟨by omega, i, lt_length_of_getElem? hm, hm, hi, hn.symm⟩
  · rintro (⟨hn, i, _, hm, hi⟩ | ⟨_, i, hl, hm, hi, hn⟩)
    · exact ⟨i, hm, Or.inl ⟨hi, hn⟩⟩
    · have hv := hr i hl hm
      refine ⟨i, hm, Or.inr ⟨hi, ?_⟩⟩
      rw [toInt32_of_range (by omega) (by omega)]
      exact hn.symm

theorem ConvertSequences_contract_witness :
    InIntRange ['$', '7', '+', '$'] ∧
    (0 : Int) ∈ ConvertSequences ['$', '7', '+', '$'] '$' 'i' :=
  ⟨by decide, ((ConvertSequences_contract ['$', '7', '+', '$'] (by decide)).1 0).2
    (Or.inr ⟨le_refl _, 3, by decide, by decide, by decide, by decide⟩)⟩


theorem digitLoopReads_fst (str : List Char) :
    ∀ (fuel j : Nat) (v : Int), (digitLoopReads str fuel j v).1 = digitLoop str fuel j v := by
  intro fuel
  induction fuel with
  | zero => intro j v; rfl
  | succ fuel ih =>
    intro j v
    unfold digitLoopReads digitLoop
    split_ifs
    · exact ih _ _
    · rfl

theorem digitLoopReads_le (str : List Char) :
    ∀ (fuel j : Nat) (v : Int), j ≤ str.length →
      ∀ k ∈ (digitLoopReads str fuel j v).2, k ≤ str.length := by
  intro fuel
  induction fuel with
  | zero => intro j v _ k hk; simp [digitLoopReads] at hk
  | succ fuel ih =>
    intro j v hj k hk
    unfold digitLoopReads at hk
    split_ifs at hk with hc
    · simp only [Bool.and_eq_true, decide_eq_true_eq] at hc
      simp only [List.mem_cons] at hk
      rcases hk with rfl | rfl | hk
      · exact hj
      · exact hj
      · exact ih (j + 1) _ hc.2 k hk
    · simp only [List.mem_singleton] at hk
      omega

theorem scanStepReads_fst (str : List Char) (sc ic : Char) (acc : List Int × List Nat)
    (i : Nat) : (scanStepReads str sc ic acc i).1 = scanStep str sc ic acc.1 i := by
  unfold scanStepReads scanStep
  by_cases h1 : charAt str i = sc
  · by_cases h2 : i + 1 < str.length
    · by_cases h3 : charAt str (i + 1) = ic
      · simp [h1, h2, h3]
      · simp [h1, h2, h3, digitLoopReads_fst]
    · simp [h1, h2, digitLoopReads_fst]
  · simp [h1]

theorem foldl_scanStepReads_fst (str : List Char) (sc ic : Char) (l : List Nat) :
    ∀ acc : List Int × List Nat,
      (l.foldl (scanStepReads str sc ic) acc).1 = l.foldl (scanStep str sc ic) acc.1 := by
  induction l with
  | nil => intro acc; rfl
  | cons i l ih => intro acc; rw [List.foldl_cons, List.foldl_cons, ih, scanStepReads_fst]

/-- The instrumented scanner computes the same set as `ConvertSequences`. -/
theorem ConvertSequencesReads_fst (str : List Char) (sc ic : Char) :
    (ConvertSequencesReads str sc ic).1 = ConvertSequences str sc ic :=
  foldl_scanStepReads_fst str sc ic _ _

theorem scanStepReads_le (str : List Char) (sc ic : Char) (acc : List Int × List Nat)
    (i : Nat) (hi : i < str.length) (hacc : ∀ k ∈ acc.2, k ≤ str.length) :
    ∀ k ∈ (scanStepReads str sc ic acc i).2, k ≤ str.length := by
  intro k hk
  have hd := digitLoopReads_le str (str.length + 1) (i + 1) 0 (by omega) k
  unfold scanStepReads at hk
  split_ifs at hk <;> simp only [List.mem_append, List.mem_cons, List.mem_singleton,
    List.not_mem_nil, or_false] at hk
  · rcases hk with hk | rfl | rfl
    · exact hacc k hk
    · omega
    · omega
  · rcases hk with (hk | rfl | rfl) | hk
    · exact hacc k hk
    · omega
    · omega
    · exact hd hk
  · rcases hk with (hk | rfl) | hk
    · exact hacc k hk
    · omega
    · exact hd hk
  · rcases hk with hk | rfl
    · exact hacc k hk
    · omega

theorem foldl_scanStepReads_le (str : List Char) (sc ic : Char) (l : List Nat)
    (hl : ∀ i ∈ l, i < str.length) :
    ∀ acc : List Int × List Nat, (∀ k ∈ acc.2, k ≤ str.length) →
      ∀ k ∈ (l.foldl (scanStepReads str sc ic) acc).2, k ≤ str.length := by
  induction l with
  | nil => intro acc h; simpa using h
  | cons i l ih =>
    intro acc h
    rw [List.foldl_cons]
    exact ih (fun j hj => hl j (List.mem_cons_of_mem _ hj)) _
      (scanStepReads_le str sc ic acc i (hl i (List.mem_cons_self _ _)) h)

/-- No read of the scanner goes beyond the terminating NUL at index `str.length()`. -/
theorem ConvertSequencesReads_le (str : List Char) (sc ic : Char) :
    ∀ k ∈ (ConvertSequencesReads str sc ic).2, k ≤ str.length :=
  foldl_scanStepReads_le str sc ic _ (fun _ hi => List.mem_range.1 hi) _ (by simp)

/-- C8: on the one-character string `$` the digit loop evaluates `std::isdigit(str[1])`
before it tests `1 < str.length()`: index 1, equal to the length, is read. The same happens
when digits run to the end of the string (`$12` reads index 3). -/
theorem ConvertSequences_reads_index_length :
    ConvertSequencesReads ['$'] '$' 'i' = ([0], [0, 1]) ∧
    ¬ (∀ k ∈ (ConvertSequencesReads ['$'] '$' 'i').2, k < ['$'].length) ∧
    ConvertSequencesReads ['$', '1', '2'] '$' 'i' = ([12], [0, 1, 1, 1, 2, 2, 3, 1, 2]) ∧
    ¬ (∀ k ∈ (ConvertSequencesReads ['$', '1', '2'] '$' 'i').2, k < ['$', '1', '2'].length) := by
  decide

/-! ## `CreatePlot` -/

theorem mem_setInsertRange (x : Int) (r : List Int) :
    ∀ s : List Int, x ∈ setInsertRange s r ↔ x ∈ s ∨ x ∈ r := by
  induction r with
  | nil => intro s; simp [setInsertRange]
  | cons v r ih =>
    intro s
    have := ih (setInsert v s)
    simp only [setInsertRange, List.foldl_cons] at this ⊢
    rw [this, mem_setInsert, List.mem_cons]
    tauto

theorem sorted_setInsertRange (r : List Int) :
    ∀ s : List Int, s.Sorted (· < ·) → (setInsertRange s r).Sorted (· < ·) := by
  induction r with
  | nil => intro s h; simpa [setInsertRange] using h
  | cons v r ih =>
    intro s h
    have := ih (setInsert v s) (sorted_setInsert v s h)
    simpa [setInsertRange] using this

theorem CreatePlot_plot_ids (h : List Char → Int) (x y : List Char) :
    (CreatePlot h x y).attribs.map (fun a => a.plot_id) =
      setInsertRange (setInsertRange [] (ConvertSequences x '$' 'i'))
        (ConvertSequences y '$' 'i') := by
  simp [CreatePlot, List.map_map, Function.comp_def]

theorem mem_CreatePlot_plot_ids (h : List Char → Int) (x y : List Char) (c : Int) :
    c ∈ (CreatePlot h x y).attribs.map (fun a => a.plot_id) ↔
      c ∈ ConvertSequences x '$' 'i' ∨ c ∈ ConvertSequences y '$' 'i' := by
  rw [CreatePlot_plot_ids, mem_setInsertRange, mem_setInsertRange]
  simp

theorem ConvertSequences_ge (str : List Char) (hr : InIntRange str) :
    ∀ c ∈ ConvertSequences str '$' 'i', -1 ≤ c := by
  intro c hc
  obtain ⟨i, hm, ⟨_, hn⟩ | ⟨_, hn⟩⟩ := (mem_ConvertSequences str c).1 hc
  · omega
  · have hv := hr i (lt_length_of_getElem? hm) hm
    rw [toInt32_of_range (by omega) (by omega)] at hn
    omega

theorem attribName_eq_specName {c : Int} (hc : -1 ≤ c) : attribName c = specName c := by
  unfold attribName specName
  by_cases h1 : c = -1
  · subst h1; simp
  · have : c ≥ 0 := by omega
    simp [h1, this]

theorem CreatePlot_name (h : List Char → Int) (x y : List Char) :
    ∀ a ∈ (CreatePlot h x y).attribs, a.name = attribName a.plot_id := by
  intro a ha
  simp only [CreatePlot, List.mem_map] at ha
  obtain ⟨i, _, rfl⟩ := ha
  rfl

/-- C2, as stated, fails: the digit run of `$4294967294` leaves `-2` in the 32-bit `v`, the
bindings are channels `-2` and `-1`, both named `si`; channel `-2` is not named `s-2` and
`-1` is not first. -/
theorem CreatePlot_overflow_bindings :
    (CreatePlot (fun _ => 0) ['$', '4', '2', '9', '4', '9', '6', '7', '2', '9', '4']
        ['$', 'i']).attribs.map (fun a => (a.name, a.plot_id)) =
      [(['s', 'i'], -2), (['s', 'i'], -1)] ∧
    specName (-2) = ['s', '-', '2'] ∧
    ¬ (∀ a ∈ (CreatePlot (fun _ => 0) ['$', '4', '2', '9', '4', '9', '6', '7', '2', '9', '4']
        ['$', 'i']).attribs, a.name = specName a.plot_id) ∧
    (-1 : Int) ∈ (CreatePlot (fun _ => 0)
        ['$', '4', '2', '9', '4', '9', '6', '7', '2', '9', '4']
        ['$', 'i']).attribs.map (fun a => a.plot_id) ∧
    ((CreatePlot (fun _ => 0) ['$', '4', '2', '9', '4', '9', '6', '7', '2', '9', '4']
        ['$', 'i']).attribs.map (fun a => a.plot_id)).head? ≠ some (-1) := by
  decide

/-- C2 (amended): the bindings left by `CreatePlot(x, y)` list, strictly ascending, exactly the
channels of `ConvertSequences(x) ∪ ConvertSequences(y)`; `contains_id` holds exactly when
`-1` is in the union; `x = $0`, `y = $1` give the two bindings `s0` (channel 0) and `s1`
(channel 1); and, for expressions whose digit runs fit an `int`, `-1` is first when present
and a binding is named `si` for channel `-1` and `s` followed by the decimal index
otherwise. -/
theorem CreatePlot_bindings (h : List Char → Int) (x y : List Char) :
    ((CreatePlot h x y).attribs.map (fun a => a.plot_id)).Sorted (· < ·) ∧
    (∀ c : Int, c ∈ (CreatePlot h x y).attribs.map (fun a => a.plot_id) ↔
      c ∈ ConvertSequences x '$' 'i' ∨ c ∈ ConvertSequences y '$' 'i') ∧
    ((CreatePlot h x y).contains_id = true ↔
      ((-1 : Int) ∈ ConvertSequences x '$' 'i' ∨ (-1 : Int) ∈ ConvertSequences y '$' 'i')) ∧
    (CreatePlot h ['$', '0'] ['$', '1']).attribs.map (fun a => (a.name, a.plot_id)) =
      [(['s', '0'], 0), (['s', '1'], 1)] ∧
    (InIntRange x → InIntRange y →
      ((-1 : Int) ∈ (CreatePlot h x y).attribs.map (fun a => a.plot_id) →
        ((CreatePlot h x y).attribs.map (fun a => a.plot_id)).head? = some (-1)) ∧
      (∀ a ∈ (CreatePlot h x y).attribs, a.name = specName a.plot_id)) := by
  have hs : ((CreatePlot h x y).attribs.map (fun a => a.plot_id)).Sorted (· < ·) := by
    rw [CreatePlot_plot_ids]
    exact sorted_setInsertRange _ _ (sorted_setInsertRange _ _ List.sorted_nil)
  refine ⟨hs, mem_CreatePlot_plot_ids h x y, ?_, rfl, fun hx hy => ?_⟩
  · have : (CreatePlot h x y).contains_id = decide ((-1 : Int) ∈
        (CreatePlot h x y).attribs.map (fun a => a.plot_id)) := by
      rw [CreatePlot_plot_ids]; rfl
    rw [this, decide_eq_true_iff]
    exact mem_CreatePlot_plot_ids h x y (-1)
  · have hge : ∀ c ∈ (CreatePlot h x y).attribs.map (fun a => a.plot_id), -1 ≤ c := by
      intro c hc
      rcases (mem_CreatePlot_plot_ids h x y c).1 hc with hc | hc
      · exact ConvertSequences_ge x hx c hc
      · exact ConvertSequences_ge y hy c hc
    refine ⟨?_, ?_⟩
    · intro hm
      generalize (CreatePlot h x y).attribs.map (fun a => a.plot_id) = ids at hs hge hm
      cases ids with
      | nil => simp at hm
      | cons a rest =>
        rcases List.mem_cons.1 hm with e | hm
        · simp [e]
        · have h1 := List.rel_of_sorted_cons hs _ hm
          have h2 := hge a (List.mem_cons_self _ _)
          omega
    · intro a ha
      rw [CreatePlot_name h x y a ha]
      exact attribName_eq_specName (hge _ (List.mem_map_of_mem _ ha))

theorem CreatePlot_bindings_witness :
    InIntRange ['$', 'i', '*', '2'] ∧ InIntRange ['$', '3', '+', '$', '1'] ∧
    ∀ a ∈ (CreatePlot (fun _ => 0) ['$', 'i', '*', '2'] ['$', '3', '+', '$', '1']).attribs,
      a.name = specName a.plot_id :=
  ⟨by decide, by decide,
    ((CreatePlot_bindings (fun _ => 0) ['$', 'i', '*', '2']
      ['$', '3', '+', '$', '1']).2.2.2.2 (by decide) (by decide)).2⟩

/-- C10: with `x = $01` the shader text reads `float x = s01;` while the only declaration
emitted is `attribute float s1;`: the reference `s01` is not the name of any binding. -/
theorem CreatePlot_leading_zero_undeclared (h : List Char → Int) :
    ReplaceChar ['$', '0', '1'] '$' 's' = ['s', '0', '1'] ∧
    digitRun ['$', '0', '1'] 1 = ['0', '1'] ∧
    (CreatePlot h ['$', '0', '1'] ['$', '1']).attribs.map (fun a => a.name) = [['s', '1']] ∧
    ¬ ReferencesDeclared ['$', '0', '1']
        ((CreatePlot h ['$', '0', '1'] ['$', '1']).attribs.map (fun a => a.name)) := by
  have e : (CreatePlot h ['$', '0', '1'] ['$', '1']).attribs.map (fun a => a.name)
      = [['s', '1']] := rfl
  refine ⟨by decide, by decide, e, ?_⟩
  rw [e]
  decide

/-! ## View controller -/

/-- C3: a zoom without the Cmd modifier sends each X bound `b` to `s*(b - c) + c` with
`s = 1 - p1` and `c = int_x[1]` under `track_front`, the midpoint otherwise; the Y interval
is untouched. With `int_x = [0,10]` and `s = 1/2` the result is `[5,10]` under
`track_front` and `[5/2, 15/2]` otherwise. -/
theorem Special_zoom_x (k : HandlerConsts) (p : Plotter) (x y p1 p2 p3 p4 : ℚ)
    (button_state : Int) (hcmd : Int.land button_state k.KeyModifierCmd = 0) :
    (Special k p InputSpecial.InputSpecialZoom x y p1 p2 p3 p4 button_state).int_x =
      ((1 - p1) * (p.int_x.1 - (if p.track_front then p.int_x.2
          else (p.int_x.1 + p.int_x.2) / 2))
        + (if p.track_front then p.int_x.2 else (p.int_x.1 + p.int_x.2) / 2),
       (1 - p1) * (p.int_x.2 - (if p.track_front then p.int_x.2
          else (p.int_x.1 + p.int_x.2) / 2))
        + (if p.track_front then p.int_x.2 else (p.int_x.1 + p.int_x.2) / 2)) ∧
    (Special k p InputSpecial.InputSpecialZoom x y p1 p2 p3 p4 button_state).int_y = p.int_y ∧
    (p.int_x = (0, 10) → 1 - p1 = 1 / 2 → p.track_front = true →
      (Special k p InputSpecial.InputSpecialZoom x y p1 p2 p3 p4 button_state).int_x
        = (5, 10)) ∧
    (p.int_x = (0, 10) → 1 - p1 = 1 / 2 → p.track_front = false →
      (Special k p InputSpecial.InputSpecialZoom x y p1 p2 p3 p4 button_state).int_x
        = (5 / 2, 15 / 2)) := by
  have e : (Special k p InputSpecial.InputSpecialZoom x y p1 p2 p3 p4 button_state).int_x =
      ((1 - p1) * (p.int_x.1 - (if p.track_front then p.int_x.2
          else (p.int_x.1 + p.int_x.2) / 2))
        + (if p.track_front then p.int_x.2 else (p.int_x.1 + p.int_x.2) / 2),
       (1 - p1) * (p.int_x.2 - (if p.track_front then p.int_x.2
          else (p.int_x.1 + p.int_x.2) / 2))
        + (if p.track_front then p.int_x.2 else (p.int_x.1 + p.int_x.2) / 2)) := by
    simp [Special, hcmd]
  refine ⟨e, by simp [Special, hcmd], ?_, ?_⟩
  · intro hx hs ht
    rw [e, hx, hs, ht]
    norm_num
  · intro hx hs ht
    rw [e, hx, hs, ht]
    norm_num

theorem Special_zoom_x_witness :
    Int.land 0 524288 = 0 ∧
    (Special
      { MouseButtonLeft := 1, MouseButtonMiddle := 2, MouseButtonRight := 4,
        MouseWheelUp := 8, MouseWheelDown := 16, KeyModifierCmd := 524288 }
      { v := { l := 0, b := 0, w := 640, h := 480 }, int_x := (0, 10), int_y := (-1, 1),
        ticks := (1, 1), track_front := true, hover := (0, 0), sel_x := (0, 0),
        sel_y := (0, 0), last_mouse_pos := (0, 0) }
      InputSpecial.InputSpecialZoom 0 0 (1 / 2) 0 0 0 0).int_x = (5, 10) :=
  ⟨by decide, (Special_zoom_x _ _ 0 0 (1 / 2) 0 0 0 0 (by decide)).2.2.1 rfl (by norm_num) rfl⟩

/-- The middle-button branch of `MouseMotion` hands the converted delta to `Special` in the
`x`, `y` slots; `Special` pans by `p1`, `p2`, which are both 0: the intervals do not move. -/
theorem MouseMotion_middle_intervals (k : HandlerConsts) (p : Plotter) (x y : Int)
    (button_state : Int) (hm : button_state = k.MouseButtonMiddle)
    (hl : button_state ≠ k.MouseButtonLeft) :
    (MouseMotion k p x y button_state).int_x = p.int_x ∧
    (MouseMotion k p x y button_state).int_y = p.int_y := by
  subst hm
  simp [MouseMotion, Special, hl]

/-- C4: with `int_x = [0,10]`, viewport width 100 and a middle-button drag of `dx = 10`
pixels the specified pan gives `int_x = [-1, 9]`; `MouseMotion` leaves `int_x = [0,10]`. -/
theorem MouseMotion_pan_does_not_shift :
    (MouseMotion
      { MouseButtonLeft := 1, MouseButtonMiddle := 2, MouseButtonRight := 4,
        MouseWheelUp := 8, MouseWheelDown := 16, KeyModifierCmd := 524288 }
      { v := { l := 0, b := 0, w := 100, h := 100 }, int_x := (0, 10), int_y := (0, 10),
        ticks := (1, 1), track_front := false, hover := (0, 0), sel_x := (0, 0),
        sel_y := (0, 0), last_mouse_pos := (0, 0) }
      10 0 2).int_x = (0, 10) ∧
    specPanX
      { v := { l := 0, b := 0, w := 100, h := 100 }, int_x := (0, 10), int_y := (0, 10),
        ticks := (1, 1), track_front := false, hover := (0, 0), sel_x := (0, 0),
        sel_y := (0, 0), last_mouse_pos := (0, 0) } 10 = (-1, 9) := by
  constructor
  · simp [MouseMotion, Special]
  · norm_num [specPanX]

/-- C5: for non-degenerate intervals and a viewport of non-zero width and height,
`ScreenToPlot` followed by the render transform `scale*(plot + offset)` and the viewport
map from NDC to pixels gives back the pixel; the viewport's left/bottom corner goes to clip
coordinates `(-1,-1)` and its right/top corner to `(1,1)`. -/
theorem ScreenToPlot_roundtrip (p : Plotter) (px py : Int)
    (hx : p.int_x.2 ≠ p.int_x.1) (hy : p.int_y.2 ≠ p.int_y.1)
    (hw : p.v.w ≠ 0) (hh : p.v.h ≠ 0) :
    ndcToPixel p.v (clipPosition (renderScale p) (renderOffset p) (ScreenToPlot p px py))
      = ((px : ℚ), (py : ℚ)) ∧
    clipPosition (renderScale p) (renderOffset p) (ScreenToPlot p p.v.l p.v.b) = (-1, -1) ∧
    clipPosition (renderScale p) (renderOffset p)
      (ScreenToPlot p (p.v.l + p.v.w) (p.v.b + p.v.h)) = (1, 1) := by
  have hx1 : p.int_x.2 - p.int_x.1 ≠ 0 := sub_ne_zero.2 hx
  have hy1 : p.int_y.2 - p.int_y.1 ≠ 0 := sub_ne_zero.2 hy
  have hw1 : (p.v.w : ℚ) ≠ 0 := by exact_mod_cast hw
  have hh1 : (p.v.h : ℚ) ≠ 0 := by exact_mod_cast hh
  refine ⟨?_, ?_, ?_⟩
  · simp only [ndcToPixel, clipPosition, renderScale, renderOffset, ScreenToPlot]
    refine Prod.ext ?_ ?_ <;> (push_cast; field_simp; ring)
  · simp only [clipPosition, renderScale, renderOffset, ScreenToPlot]
    refine Prod.ext ?_ ?_ <;> (push_cast; field_simp; ring)
  · simp only [clipPosition, renderScale, renderOffset, ScreenToPlot]
    refine Prod.ext ?_ ?_ <;> (push_cast; field_simp; ring)

theorem ScreenToPlot_roundtrip_witness :
    ((0, 10) : ℚ × ℚ).2 ≠ ((0, 10) : ℚ × ℚ).1 ∧ ((-1, 1) : ℚ × ℚ).2 ≠ ((-1, 1) : ℚ × ℚ).1 ∧
    (640 : Int) ≠ 0 ∧ (480 : Int) ≠ 0 ∧
    ndcToPixel { l := 20, b := 30, w := 640, h := 480 }
      (clipPosition
        (renderScale
          { v := { l := 20, b := 30, w := 640, h := 480 }, int_x := (0, 10),
            int_y := (-1, 1), ticks := (1, 1), track_front := false, hover := (0, 0),
            sel_x := (0, 0), sel_y := (0, 0), last_mouse_pos := (0, 0) })
        (renderOffset
          { v := { l := 20, b := 30, w := 640, h := 480 }, int_x := (0, 10),
            int_y := (-1, 1), ticks := (1, 1), track_front := false, hover := (0, 0),
            sel_x := (0, 0), sel_y := (0, 0), last_mouse_pos := (0, 0) })
        (ScreenToPlot
          { v := { l := 20, b := 30, w := 640, h := 480 }, int_x := (0, 10),
            int_y := (-1, 1), ticks := (1, 1), track_front := false, hover := (0, 0),
            sel_x := (0, 0), sel_y := (0, 0), last_mouse_pos := (0, 0) } 100 200))
      = (((100 : Int) : ℚ), ((200 : Int) : ℚ)) :=
  ⟨by norm_num, by norm_num, by decide, by decide,
    (ScreenToPlot_roundtrip
      { v := { l := 20, b := 30, w := 640, h := 480 }, int_x := (0, 10),
        int_y := (-1, 1), ticks := (1, 1), track_front := false, hover := (0, 0),
        sel_x := (0, 0), sel_y := (0, 0), last_mouse_pos := (0, 0) } 100 200
      (by norm_num) (by norm_num) (by decide) (by decide)).1⟩

/-! ## The series loop: draw decisions -/

theorem enableAttribs_ok_iff (block : DataLogBlock) (l : List PlotAttrib) :
    (enableAttribs block l).2 = true ↔
      ∀ a ∈ l, (0 ≤ a.plot_id ∧ a.plot_id < toInt32 (block.Dimensions : Int)) ∨
        a.plot_id = -1 := by
  induction l with
  | nil => simp [enableAttribs]
  | cons a rest ih =>
    unfold enableAttribs
    by_cases h1 : 0 ≤ a.plot_id ∧ a.plot_id < toInt32 (block.Dimensions : Int)
    · rw [if_pos h1]
      simp only [ih, List.forall_mem_cons, h1, and_self, true_or, true_and]
    · rw [if_neg h1]
      by_cases h2 : a.plot_id = -1
      · rw [if_pos h2]
        simp only [ih, List.forall_mem_cons, h2, or_true, true_and]
      · rw [if_neg h2]
        simp only [List.forall_mem_cons, h1, h2, or_self, false_and]
        simp

theorem enableAttribs_no_draw (block : DataLogBlock) (l : List PlotAttrib) :
    ∀ c ∈ (enableAttribs block l).1, c.isDraw = false := by
  induction l with
  | nil => simp [enableAttribs]
  | cons a rest ih =>
    unfold enableAttribs
    split_ifs
    · intro c hc
      simp only [List.mem_cons] at hc
      rcases hc with rfl | rfl | hc
      · rfl
      · rfl
      · exact ih c hc
    · intro c hc
      simp only [List.mem_cons] at hc
      rcases hc with rfl | rfl | hc
      · rfl
      · rfl
      · exact ih c hc
    · simp

theorem filter_isDraw_renderBlock {α : Type} (toFloat : Nat → α) (garbage : α)
    (ps : PlotSeries) (c : IdCache α) (block : DataLogBlock) :
    (renderBlock toFloat garbage ps c block).calls.filter GlCall.isDraw =
      if (enableAttribs block ps.attribs).2
      then [GlCall.DrawArrays (toInt32 (block.Samples : Int))] else [] := by
  have h1 : (enableAttribs block ps.attribs).1.filter GlCall.isDraw = [] :=
    List.filter_eq_nil_iff.2 (fun c hc => by simp [enableAttribs_no_draw block _ c hc])
  have h2 : (ps.attribs.map fun a => GlCall.DisableVertexAttribArray a.location).filter
      GlCall.isDraw = [] :=
    List.filter_eq_nil_iff.2 (fun c hc => by
      obtain ⟨a, _, rfl⟩ := List.mem_map.1 hc
      simp [GlCall.isDraw])
  simp only [renderBlock, List.filter_append, h1, h2, List.append_nil]
  split_ifs <;> simp [GlCall.isDraw]

theorem mem_renderBlocks {α : Type} (toFloat : Nat → α) (garbage : α) (ps : PlotSeries)
    (chain : List DataLogBlock) :
    ∀ (c : IdCache α), ∀ vis ∈ (renderBlocks toFloat garbage ps c chain).2,
      vis.block ∈ chain ∧ ∃ c0, vis = renderBlock toFloat garbage ps c0 vis.block := by
  induction chain with
  | nil => intro c vis h; simp [renderBlocks] at h
  | cons b rest ih =>
    intro c vis h
    simp only [renderBlocks, List.mem_cons] at h
    rcases h with rfl | h
    · exact ⟨List.mem_cons_self _ _, c, rfl⟩
    · obtain ⟨h1, h2⟩ := ih _ vis h
      exact ⟨List.mem_cons_of_mem _ h1, h2⟩

theorem renderBlocks_blocks {α : Type} (toFloat : Nat → α) (garbage : α) (ps : PlotSeries)
    (chain : List DataLogBlock) :
    ∀ (c : IdCache α),
      (renderBlocks toFloat garbage ps c chain).2.map (fun vis => vis.block) = chain := by
  induction chain with
  | nil => intro c; rfl
  | cons b rest ih =>
    intro c
    simp only [renderBlocks, List.map_cons, ih]
    rfl

theorem draws_renderBlocks {α : Type} (toFloat : Nat → α) (garbage : α) (ps : PlotSeries)
    (chain : List DataLogBlock) :
    ∀ (c : IdCache α),
      (glTrace (renderBlocks toFloat garbage ps c chain).2).filter GlCall.isDraw =
        (chain.map fun b =>
          if (enableAttribs b ps.attribs).2
          then [GlCall.DrawArrays (toInt32 (b.Samples : Int))] else []).flatten := by
  induction chain with
  | nil => intro c; rfl
  | cons b rest ih =>
    intro c
    have := ih (renderBlock toFloat garbage ps c b).cache
    simp only [glTrace] at this
    simp only [glTrace, renderBlocks, List.map_cons, List.flatten_cons, List.filter_append,
      filter_isDraw_renderBlock, this]

theorem drawable_iff_enable_ok (ps : PlotSeries) (block : DataLogBlock)
    (hd : block.Dimensions < 2147483648) :
    Drawable ps block ↔ (enableAttribs block ps.attribs).2 = true := by
  have e : toInt32 (block.Dimensions : Int) = (block.Dimensions : Int) :=
    toInt32_of_range (by omega) (by omega)
  rw [enableAttribs_ok_iff, e]
  unfold Drawable
  constructor
  · intro h a ha
    exact (h a ha).symm
  · intro h a ha
    exact (h a ha).symm

theorem not_drawable_of_ge (ps : PlotSeries) (block : DataLogBlock)
    (h : ∃ a ∈ ps.attribs, (block.Dimensions : Int) ≤ a.plot_id) : ¬ Drawable ps block := by
  obtain ⟨a, ha, hge⟩ := h
  intro hdr
  rcases hdr a ha with h1 | h1
  · omega
  · omega

/-- C7, as stated, fails: a block with `Dimensions = 4294967299` has channels 0 and 3, but
`(int)block->Dimensions()` is 3, so the binding of channel 3 leaves through `draw_skip`
and no draw is issued. -/
theorem renderBlocks_dimensions_narrowed :
    Drawable (CreatePlot (fun _ => 0) ['$', '0'] ['$', '3'])
      { Samples := 2, MaxSamples := 4, Dimensions := 4294967299, StartId := 0 } ∧
    (renderBlocks (fun n : Nat => n) 0 (CreatePlot (fun _ => 0) ['$', '0'] ['$', '3'])
        IdCache.initial
        [{ Samples := 2, MaxSamples := 4, Dimensions := 4294967299, StartId := 0 }]).2.map
        (fun vis => vis.calls) =
      [[GlCall.SetUniformIdOffset 0,
        GlCall.VertexAttribPointer 0 12 (AttribSource.DimData 0),
        GlCall.EnableVertexAttribArray 0,
        GlCall.DisableVertexAttribArray 0,
        GlCall.DisableVertexAttribArray 0]] ∧
    ∀ vis ∈ (renderBlocks (fun n : Nat => n) 0 (CreatePlot (fun _ => 0) ['$', '0'] ['$', '3'])
        IdCache.initial
        [{ Samples := 2, MaxSamples := 4, Dimensions := 4294967299, StartId := 0 }]).2,
      GlCall.DrawArrays (toInt32 (vis.block.Samples : Int)) ∉ vis.calls := by
  refine ⟨by decide, by decide, ?_⟩
  intro vis hvis
  simp only [renderBlocks, List.mem_singleton] at hvis
  subst hvis
  decide

/-- C7 (amended): over a chain of blocks whose dimension counts fit an `int`, every block is visited
once, in order; a line-strip draw of the block's sample count is issued exactly when every
binding of the series is channel `-1` or a channel in `[0, Dimensions)`, and no other draw is
issued; every visit ends by disabling the slot of every binding; a block with a binding
whose channel is `≥ Dimensions` gets no draw, and the draws issued over the chain are those
issued over the chain without that block. -/
theorem renderBlocks_draw_rule {α : Type} (toFloat : Nat → α) (garbage : α)
    (ps : PlotSeries) (c : IdCache α) (chain : List DataLogBlock)
    (hd : ∀ b ∈ chain, b.Dimensions < 2147483648) :
    (renderBlocks toFloat garbage ps c chain).2.map (fun vis => vis.block) = chain ∧
    (∀ vis ∈ (renderBlocks toFloat garbage ps c chain).2,
      (GlCall.DrawArrays (toInt32 (vis.block.Samples : Int)) ∈ vis.calls ↔
        Drawable ps vis.block) ∧
      (∀ n : Int, GlCall.DrawArrays n ∈ vis.calls → n = toInt32 (vis.block.Samples : Int)) ∧
      List.IsSuffix (ps.attribs.map fun a => GlCall.DisableVertexAttribArray a.location)
        vis.calls ∧
      ((∃ a ∈ ps.attribs, (vis.block.Dimensions : Int) ≤ a.plot_id) →
        ∀ n : Int, GlCall.DrawArrays n ∉ vis.calls)) ∧
    (∀ (pre post : List DataLogBlock) (bad : DataLogBlock),
      chain = pre ++ bad :: post →
      (∃ a ∈ ps.attribs, (bad.Dimensions : Int) ≤ a.plot_id) →
      (glTrace (renderBlocks toFloat garbage ps c (pre ++ bad :: post)).2).filter
          GlCall.isDraw =
        (glTrace (renderBlocks toFloat garbage ps c (pre ++ post)).2).filter
          GlCall.isDraw) := by
  refine ⟨renderBlocks_blocks toFloat garbage ps chain c, ?_, ?_⟩
  · intro vis hvis
    obtain ⟨hmem, c0, hc0⟩ := mem_renderBlocks toFloat garbage ps chain c vis hvis
    have hdim := hd _ hmem
    have hf := filter_isDraw_renderBlock toFloat garbage ps c0 vis.block
    rw [← hc0] at hf
    have hdraw : ∀ n : Int, GlCall.DrawArrays n ∈ vis.calls ↔
        GlCall.DrawArrays n ∈ vis.calls.filter GlCall.isDraw := by
      intro n
      rw [List.mem_filter]
      simp [GlCall.isDraw]
    refine ⟨?_, ?_, ?_, ?_⟩
    · rw [hdraw, hf, drawable_iff_enable_ok ps vis.block hdim]
      by_cases he : (enableAttribs vis.block ps.attribs).2 = true
      · simp [he]
      · simp [he]
    · intro n hn
      rw [hdraw, hf] at hn
      by_cases he : (enableAttribs vis.block ps.attribs).2 = true
      · simpa [he] using hn
      · simp [he] at hn
    · rw [hc0]
      exact List.suffix_append _ _
    · intro hbad n hn
      have hnd := not_drawable_of_ge ps vis.block hbad
      rw [drawable_iff_enable_ok ps vis.block hdim] at hnd
      rw [hdraw, hf] at hn
      simp [hnd] at hn
  · intro pre post bad hchain hbad
    have hdim : bad.Dimensions < 2147483648 := hd bad (by rw [hchain]; simp)
    have hnd := not_drawable_of_ge ps bad hbad
    rw [drawable_iff_enable_ok ps bad hdim] at hnd
    rw [draws_renderBlocks, draws_renderBlocks]
    simp [hnd]

/-! ## The series loop: the sample-index cache -/

theorem fillIdArray_spec {α : Type} (toFloat : Nat → α) (startId : Nat) (l : List α) :
    ∀ m : Nat, m ≤ l.length →
      (fillIdArray toFloat startId m l).length = l.length ∧
      ∀ k < m, (fillIdArray toFloat startId m l)[k]? =
        some (toFloat ((startId + k) % sizeMod)) := by
  intro m
  induction m with
  | zero => intro _; simp [fillIdArray]
  | succ m ih =>
    intro hm
    obtain ⟨hlen, hget⟩ := ih (by omega)
    have e : fillIdArray toFloat startId (m + 1) l =
        (fillIdArray toFloat startId m l).set m (toFloat ((startId + m) % sizeMod)) := by
      simp [fillIdArray, List.range_succ, List.foldl_append]
    rw [e]
    refine ⟨by rw [List.length_set, hlen], fun k hk => ?_⟩
    by_cases hkm : k = m
    · subst hkm
      exact List.getElem?_set_self (by omega)
    · rw [List.getElem?_set_ne (Ne.symm hkm)]
      exact hget k (by omega)

theorem updateIdCache_inv {α : Type} (toFloat : Nat → α) (garbage : α) (c : IdCache α)
    (block : DataLogBlock) (hc : CacheInv c) :
    CacheInv (updateIdCache toFloat garbage c block) := by
  unfold updateIdCache
  by_cases h1 : c.id_size < block.Samples
  · simp only [h1, if_true]
    split_ifs
    · exact ⟨by
        simpa using (fillIdArray_spec toFloat block.StartId
          (List.replicate block.MaxSamples garbage) block.MaxSamples (by simp)).1,
        Or.inr rfl⟩
    · exact ⟨by simp, Or.inr rfl⟩
  · simp only [h1, if_false]
    split_ifs
    · exact ⟨by
        have := (fillIdArray_spec toFloat block.StartId c.id_array c.id_size
          (by rw [hc.1])).1
        simpa [hc.1] using this, hc.2⟩
    · exact hc

theorem updateIdCache_serves {α : Type} (toFloat : Nat → α) (garbage : α) (c : IdCache α)
    (block : DataLogBlock) (hc : CacheInv c) (hs : block.Samples ≤ block.MaxSamples)
    (hid : block.StartId ≠ sizeMax) :
    CacheServes toFloat (updateIdCache toFloat garbage c block) block := by
  unfold updateIdCache
  by_cases h1 : c.id_size < block.Samples
  · have hne : sizeMax ≠ block.StartId := fun h => hid h.symm
    simp only [h1, if_true, ne_eq, hne, not_false_eq_true]
    obtain ⟨hl, hg⟩ := fillIdArray_spec toFloat block.StartId
      (List.replicate block.MaxSamples garbage) block.MaxSamples (by simp)
    refine ⟨?_, fun k hk => hg k (by omega)⟩
    simp only [hl, List.length_replicate]
    exact hs
  · simp only [h1, if_false]
    rcases hc.2 with h0 | hst
    · have hz : block.Samples = 0 := by omega
      split_ifs
      · refine ⟨by omega, fun k hk => by omega⟩
      · refine ⟨by omega, fun k hk => by omega⟩
    · have hne : c.id_start ≠ block.StartId := by rw [hst]; exact fun h => hid h.symm
      simp only [ne_eq, hne, not_false_eq_true, if_true]
      obtain ⟨hl, hg⟩ := fillIdArray_spec toFloat block.StartId c.id_array c.id_size
        (by rw [hc.1])
      refine ⟨?_, fun k hk => hg k (by omega)⟩
      rw [hl, hc.1]
      omega

theorem renderBlocks_cache {α : Type} (toFloat : Nat → α) (garbage : α) (ps : PlotSeries)
    (chain : List DataLogBlock)
    (hb : ∀ b ∈ chain, b.Samples ≤ b.MaxSamples ∧ b.StartId ≠ sizeMax) :
    ∀ c : IdCache α, CacheInv c →
      CacheInv (renderBlocks toFloat garbage ps c chain).1 ∧
      ∀ vis ∈ (renderBlocks toFloat garbage ps c chain).2,
        vis.series.contains_id = true → CacheServes toFloat vis.cache vis.block := by
  induction chain with
  | nil => intro c hc; exact ⟨hc, by simp [renderBlocks]⟩
  | cons b rest ih =>
    intro c hc
    have hb0 := hb b (List.mem_cons_self _ _)
    have hinv : CacheInv (renderBlock toFloat garbage ps c b).cache := by
      simp only [renderBlock]
      split_ifs
      · exact updateIdCache_inv toFloat garbage c b hc
      · exact hc
    obtain ⟨h1, h2⟩ := ih (fun b hb1 => hb b (List.mem_cons_of_mem _ hb1)) _ hinv
    refine ⟨h1, fun vis hvis hid => ?_⟩
    simp only [renderBlocks, List.mem_cons] at hvis
    rcases hvis with rfl | hvis
    · have hid1 : ps.contains_id = true := hid
      simp only [renderBlock, hid1, if_true]
      exact updateIdCache_serves toFloat garbage c b hc hb0.1 hb0.2
    · exact h2 vis hvis hid

theorem renderSeries_cache {α : Type} (toFloat : Nat → α) (garbage : α)
    (blocks : List DataLogBlock)
    (hb : ∀ b ∈ blocks, b.Samples ≤ b.MaxSamples ∧ b.StartId ≠ sizeMax)
    (series : List PlotSeries) :
    ∀ c : IdCache α, CacheInv c →
      CacheInv (renderSeries toFloat garbage blocks c series).1 ∧
      ∀ vis ∈ (renderSeries toFloat garbage blocks c series).2,
        vis.series.contains_id = true → CacheServes toFloat vis.cache vis.block := by
  induction series with
  | nil => intro c hc; exact ⟨hc, by simp [renderSeries]⟩
  | cons ps rest ih =>
    intro c hc
    obtain ⟨h1, h2⟩ := renderBlocks_cache toFloat garbage ps blocks hb c hc
    obtain ⟨h3, h4⟩ := ih _ h1
    refine ⟨h3, fun vis hvis hid => ?_⟩
    simp only [renderSeries, List.mem_append] at hvis
    rcases hvis with hvis | hvis
    · exact h2 vis hvis hid
    · exact h4 vis hvis hid

theorem renderFrames_cache {α : Type} (toFloat : Nat → α) (garbage : α)
    (frames : List (List PlotSeries × List DataLogBlock))
    (hb : ∀ f ∈ frames, ∀ b ∈ f.2, b.Samples ≤ b.MaxSamples ∧ b.StartId ≠ sizeMax) :
    ∀ c : IdCache α, CacheInv c →
      CacheInv (renderFrames toFloat garbage c frames).1 ∧
      ∀ vis ∈ (renderFrames toFloat garbage c frames).2,
        vis.series.contains_id = true → CacheServes toFloat vis.cache vis.block := by
  induction frames with
  | nil => intro c hc; exact ⟨hc, by simp [renderFrames]⟩
  | cons f rest ih =>
    intro c hc
    obtain ⟨h1, h2⟩ := renderSeries_cache toFloat garbage f.2
      (hb f (List.mem_cons_self _ _)) f.1 c hc
    obtain ⟨h3, h4⟩ := ih (fun g hg => hb g (List.mem_cons_of_mem _ hg)) _ h1
    refine ⟨h3, fun vis hvis hid => ?_⟩
    simp only [renderFrames, List.mem_append] at hvis
    rcases hvis with hvis | hvis
    · exact h2 vis hvis hid
    · exact h4 vis hvis hid

theorem roundToFloat_exact {n : Nat} (h : n ≤ 16777216) : roundToFloat n = n := by
  rcases Nat.lt_or_eq_of_le h with hlt | rfl
  · have e0 : droppedBits 64 n = 0 := by simp [droppedBits, hlt]
    simp [roundToFloat, e0, Nat.mod_one]
  · decide

theorem sizeToFloat_exact {n : Nat} (h : n ≤ 16777216) : sizeToFloat n = (n : ℚ) := by
  unfold sizeToFloat
  rw [roundToFloat_exact h]

/-- C9, as stated, fails: a block with `StartId = 16777216` and three samples is drawn for
the series `$i`, `$0` with `id_array[1]` holding 16777216, the `float` nearest to
16777217. -/
theorem id_cache_rounds_above_two_pow_24 :
    (∀ b ∈ [({ Samples := 3, MaxSamples := 4, Dimensions := 1, StartId := 16777216 } :
        DataLogBlock)], b.Samples ≤ b.MaxSamples ∧ b.StartId ≠ sizeMax) ∧
    (renderFrames sizeToFloat 0 IdCache.initial
      [([CreatePlot (fun _ => 0) ['$', 'i'] ['$', '0']],
        [{ Samples := 3, MaxSamples := 4, Dimensions := 1, StartId := 16777216 }])]).2.map
        (fun vis => (vis.series.contains_id, vis.block, vis.calls.filter GlCall.isDraw)) =
      [(true, { Samples := 3, MaxSamples := 4, Dimensions := 1, StartId := 16777216 },
        [GlCall.DrawArrays 3])] ∧
    (renderFrames sizeToFloat 0 IdCache.initial
      [([CreatePlot (fun _ => 0) ['$', 'i'] ['$', '0']],
        [{ Samples := 3, MaxSamples := 4, Dimensions := 1, StartId := 16777216 }])]).2.map
        (fun vis => vis.cache.id_array) =
      [[((16777216 : Nat) : ℚ), ((16777216 : Nat) : ℚ), ((16777218 : Nat) : ℚ),
        ((16777220 : Nat) : ℚ)]] ∧
    ∀ vis ∈ (renderFrames sizeToFloat 0 IdCache.initial
      [([CreatePlot (fun _ => 0) ['$', 'i'] ['$', '0']],
        [{ Samples := 3, MaxSamples := 4, Dimensions := 1, StartId := 16777216 }])]).2,
      ¬ CacheExact vis.cache vis.block := by
  have e : (renderFrames sizeToFloat 0 IdCache.initial
      [([CreatePlot (fun _ => 0) ['$', 'i'] ['$', '0']],
        [{ Samples := 3, MaxSamples := 4, Dimensions := 1, StartId := 16777216 }])]).2.map
        (fun vis => vis.cache.id_array) =
      [[((16777216 : Nat) : ℚ), ((16777216 : Nat) : ℚ), ((16777218 : Nat) : ℚ),
        ((16777220 : Nat) : ℚ)]] := by
    rfl
  refine ⟨by decide, by decide, e, ?_⟩
  intro vis hvis hx
  simp only [renderFrames, renderSeries, renderBlocks, List.append_nil,
    List.mem_singleton] at hvis
  subst hvis
  have h1 := hx.2 1 (by decide)
  have e1 : (renderBlock sizeToFloat 0 (CreatePlot (fun _ => 0) ['$', 'i'] ['$', '0'])
      IdCache.initial
      { Samples := 3, MaxSamples := 4, Dimensions := 1,
        StartId := 16777216 }).cache.id_array[1]? = some ((16777216 : Nat) : ℚ) := rfl
  rw [e1] at h1
  have h2 := Option.some.inj h1
  norm_num [renderBlock] at h2

/-- C9 (amended): from the initial statics and over any sequence of `Render` calls whose
blocks have `Samples ≤ MaxSamples` and a `StartId` other than `(size_t)-1`: at every block
visit of a series with `contains_id` at which the draw is issued, `id_array` has at least
`Samples` entries and entry `k < Samples` is the `size_t` sum `StartId + k` converted to
`float`, which is `StartId + k` itself whenever `StartId + k ≤ 2^24`. -/
theorem id_cache_serves_draw (garbage : ℚ)
    (frames : List (List PlotSeries × List DataLogBlock))
    (hb : ∀ f ∈ frames, ∀ b ∈ f.2, b.Samples ≤ b.MaxSamples ∧ b.StartId ≠ sizeMax) :
    ∀ vis ∈ (renderFrames sizeToFloat garbage IdCache.initial frames).2,
      vis.series.contains_id = true →
      GlCall.DrawArrays (toInt32 (vis.block.Samples : Int)) ∈ vis.calls →
        vis.block.Samples ≤ vis.cache.id_array.length ∧
        ∀ k < vis.block.Samples,
          vis.cache.id_array[k]? =
            some (sizeToFloat ((vis.block.StartId + k) % sizeMod)) ∧
          (vis.block.StartId + k ≤ 16777216 →
            vis.cache.id_array[k]? = some ((vis.block.StartId + k : Nat) : ℚ)) := by
  intro vis hvis hid _
  obtain ⟨hlen, hget⟩ := (renderFrames_cache sizeToFloat garbage frames hb IdCache.initial
    ⟨rfl, Or.inl rfl⟩).2 vis hvis hid
  refine ⟨hlen, fun k hk => ⟨hget k hk, fun hle => ?_⟩⟩
  rw [hget k hk]
  have hmod : (vis.block.StartId + k) % sizeMod = vis.block.StartId + k :=
    Nat.mod_eq_of_lt (by unfold sizeMod; omega)
  rw [hmod, sizeToFloat_exact hle]

theorem renderBlocks_draw_rule_witness :
    (∀ b ∈ [({ Samples := 2, MaxSamples := 4, Dimensions := 3, StartId := 10 } : DataLogBlock),
        { Samples := 1, MaxSamples := 4, Dimensions := 2, StartId := 12 }],
      b.Dimensions < 2147483648) ∧
    (glTrace (renderBlocks (fun n : Nat => n) 0
        (CreatePlot (fun _ => 7) ['$', 'i'] ['$', '2']) IdCache.initial
        ([] ++ { Samples := 1, MaxSamples := 4, Dimensions := 2, StartId := 12 } ::
          [{ Samples := 2, MaxSamples := 4, Dimensions := 3, StartId := 14 }])).2).filter
        GlCall.isDraw =
      (glTrace (renderBlocks (fun n : Nat => n) 0
        (CreatePlot (fun _ => 7) ['$', 'i'] ['$', '2']) IdCache.initial
        ([] ++ [{ Samples := 2, MaxSamples := 4, Dimensions := 3, StartId := 14 }])).2).filter
        GlCall.isDraw :=
  ⟨by decide,
    (renderBlocks_draw_rule (fun n : Nat => n) 0
      (CreatePlot (fun _ => 7) ['$', 'i'] ['$', '2']) IdCache.initial
      [{ Samples := 1, MaxSamples := 4, Dimensions := 2, StartId := 12 },
        { Samples := 2, MaxSamples := 4, Dimensions := 3, StartId := 14 }]
      (by decide)).2.2 [] [{ Samples := 2, MaxSamples := 4, Dimensions := 3, StartId := 14 }]
      { Samples := 1, MaxSamples := 4, Dimensions := 2, StartId := 12 } rfl
      ⟨{ name := ['s', '2'], plot_id := 2, location := 7 }, by decide, by decide⟩⟩

theorem id_cache_serves_draw_witness :
    (∀ f ∈ [([CreatePlot (fun _ => 7) ['$', 'i'] ['$', '0']],
          [({ Samples := 2, MaxSamples := 4, Dimensions := 1, StartId := 10 } :
            DataLogBlock)])],
      ∀ b ∈ f.2, b.Samples ≤ b.MaxSamples ∧ b.StartId ≠ sizeMax) ∧
    (10 + 1 ≤ 16777216) ∧
    (renderBlock sizeToFloat 0 (CreatePlot (fun _ => 7) ['$', 'i'] ['$', '0'])
        IdCache.initial
        { Samples := 2, MaxSamples := 4, Dimensions := 1, StartId := 10 }).cache.id_array[1]?
      = some (((10 + 1 : Nat)) : ℚ) :=
  ⟨by decide, by decide,
    (((id_cache_serves_draw 0
      [([CreatePlot (fun _ => 7) ['$', 'i'] ['$', '0']],
        [{ Samples := 2, MaxSamples := 4, Dimensions := 1, StartId := 10 }])]
      (by decide)
      (renderBlock sizeToFloat 0 (CreatePlot (fun _ => 7) ['$', 'i'] ['$', '0'])
        IdCache.initial { Samples := 2, MaxSamples := 4, Dimensions := 1, StartId := 10 })
      (List.mem_cons_self _ _) rfl (by decide)).2 1 (by decide)).2 (by decide))⟩

end Pangolin
